import Mathlib

/-!
Verification of lfx-v2-query-service: the page-token secret, the access-control checker and
the CLI payload builder.

A shallow embedding of

* `pkg/global/token.go` (`PageTokenSecret`),
* `gen/http/query_svc/client/cli.go` (`BuildQueryResourcesPayload`),
* `internal/infrastructure/nats/access_control_test.go` (`MockNATSClient`), together
  with the checker it exercises,

followed by the properties established about them.

Go strings and byte slices are lists of bytes (`Nat` values below 256); a nil slice or
nil map is `none`, an `error` is an `Option` whose `none` is Go's `nil`.
-/

namespace LfxQuery

/-! ## Go runtime pieces used by `token.go` -/

/-- A Go `string`: an immutable sequence of bytes. -/
abbrev GoString := List Nat

/-- The bytes of an ASCII literal of the source. -/
def lit (s : String) : GoString := s.data.map Char.toNat

/-- The process environment: variable name to value, `none` when the variable is unset. -/
abbrev Environ := String → Option GoString

/-- Go `os.Getenv`: the value of the variable, the empty string when it is unset. -/
def osGetenv (env : Environ) (name : String) : GoString :=
  match env name with
  | some v => v
  | none => []

/-- Go builtin `copy(dst, src)`: overwrites the first `min (len dst) (len src)` elements of
`dst` with those of `src` and leaves the rest of `dst` alone; the updated `dst` is returned. -/
def copy (dst src : List Nat) : List Nat :=
  src.take (min dst.length src.length) ++ dst.drop (min dst.length src.length)

/-! ## `pkg/global/token.go` -/

/-- The package-level variables of `token.go`. -/
structure Globals where
  /-- Holds `var pageTokenSecret [32]byte`. -/
  pageTokenSecret : List Nat
  /-- Holds the done flag of `var doOncePageTokenSecret sync.Once`. -/
  doOncePageTokenSecret : Bool
deriving DecidableEq

/-- Zero values of the package-level variables at process start. -/
def Globals.zero : Globals :=
  { pageTokenSecret := List.replicate 32 0, doOncePageTokenSecret := false }

/-- What a call of `PageTokenSecret` does to the process. -/
inductive Outcome where
  /-- Reached `log.Fatalf`: the message is logged and the process exits, nothing is returned. -/
  | fatal (msg : String)
  /-- Returned `&pageTokenSecret`: the globals after the call and the array pointed to. -/
  | returned (g : Globals) (secret : List Nat)
deriving DecidableEq

/-- The constant `pageTokenSecretName`. -/
def pageTokenSecretName : String := "PAGE_TOKEN_SECRET"

/-- Go `PageTokenSecret`: the body of `doOncePageTokenSecret.Do` runs only while the once is
not done; it reads the environment, exits the process on an empty value and otherwise copies
the value into the 32-byte array. -/
def PageTokenSecret (env : Environ) (g : Globals) : Outcome :=
  if g.doOncePageTokenSecret then
    .returned g g.pageTokenSecret
  else
    let pageTokenSecretValue := osGetenv env pageTokenSecretName
    if pageTokenSecretValue = [] then
      .fatal "environment variable PAGE_TOKEN_SECRET must be set with 32 characters"
    else
      let g1 : Globals :=
        { pageTokenSecret := copy g.pageTokenSecret pageTokenSecretValue
          doOncePageTokenSecret := true }
      .returned g1 g1.pageTokenSecret

/-- The secrets returned by a sequence of later calls, one environment per call; the run
stops at a call that exits the process. -/
def laterCalls : List Environ → Globals → List Outcome
  | [], _ => []
  | env :: rest, g =>
    match PageTokenSecret env g with
    | .fatal msg => [.fatal msg]
    | .returned g1 s => .returned g1 s :: laterCalls rest g1

/-- An environment in which only `PAGE_TOKEN_SECRET` is set, to `v`. -/
def envWith (v : GoString) : Environ :=
  fun name => if name = pageTokenSecretName then some v else none

/-- An environment in which no variable is set. -/
def envUnset : Environ := fun _ => none

/-! ## `internal/infrastructure/nats`: the mock client of `access_control_test.go`

Subjects, map keys, decisions and error messages are only compared, concatenated and passed
on, so they are Lean `String`s. -/

/-- A Go `error` value: made by `errors.New`, or by `fmt.Errorf` with a `%w` verb at the end
of its format, which keeps the cause. -/
inductive GoError where
  /-- Result of `errors.New(msg)`. -/
  | new (msg : String)
  /-- Result of `fmt.Errorf(context + "%w", cause)`. -/
  | wrap (context : String) (cause : GoError)
deriving DecidableEq

/-- Go `err.Error()`: the message of an error; a wrapping error prints its context followed
by the message of its cause. -/
def GoError.Error : GoError → String
  | .new msg => msg
  | .wrap context cause => context ++ cause.Error

/-- Go `strings.Contains(s, substr)`, as used by `assertion.Contains(err.Error(), msg)`. -/
def stringsContains (s substr : String) : Prop := substr.data <:+: s.data

instance (s substr : String) : Decidable (stringsContains s substr) := by
  unfold stringsContains; infer_instance

/-- A Go `map[string]string` that is not nil: finitely many entries with distinct keys. -/
abbrev StringMap := AList (fun _ : String => String)

/-- Go `type AccessCheckNATSResponse map[string]string`; `none` is the nil map. -/
abbrev AccessCheckNATSResponse := Option StringMap

/-- Go `type AccessCheckResult map[string]string` of the domain model; `none` is the nil
map. -/
abbrev AccessCheckResult := Option StringMap

/-- Go `m[k]` with the comma-ok form on a possibly nil map: a nil map has no key. -/
def mapIndex (m : Option StringMap) (k : String) : Option String :=
  match m with
  | none => none
  | some entries => entries.lookup k

/-- Go `reflect.DeepEqual` on two maps, which `assertion.Equal` applies: both nil or both
non-nil, and the same entries whatever their order. -/
def DeepEqual (a b : Option StringMap) : Prop :=
  match a, b with
  | none, none => True
  | some x, some y => x.entries.Perm y.entries
  | _, _ => False

/-- Modelled from the spec: the declaration of `AccessCheckNATSRequest` is not among the
sources; it carries the subject, the payload (`none` is a nil slice) and the timeout (a
`time.Duration`, in nanoseconds). -/
structure AccessCheckNATSRequest where
  Subject : String
  Message : Option (List Nat)
  Timeout : Int
deriving DecidableEq

/-- Modelled from the spec: the declaration of `NATSClientInterface` is not among the
sources; these are the three methods that `MockNATSClient` implements, each as what a call
returns. -/
structure NATSClientInterface where
  CheckAccess : AccessCheckNATSRequest → AccessCheckNATSResponse × Option GoError
  Close : Option GoError
  IsReady : Option GoError

/-- Go `type MockNATSClient struct`. -/
structure MockNATSClient where
  checkAccessResponse : AccessCheckNATSResponse
  checkAccessError : Option GoError
  closeError : Option GoError
  isReadyError : Option GoError
deriving DecidableEq

/-- Go `NewMockNATSClient`: every field holds its zero value. -/
def NewMockNATSClient : MockNATSClient :=
  { checkAccessResponse := none, checkAccessError := none, closeError := none,
    isReadyError := none }

/-- Go `(*MockNATSClient).CheckAccess`: the configured error if there is one, else the
configured response; the request is not looked at. -/
def MockNATSClient.CheckAccess (m : MockNATSClient) (_request : AccessCheckNATSRequest) :
    AccessCheckNATSResponse × Option GoError :=
  match m.checkAccessError with
  | some err => (none, some err)
  | none => (m.checkAccessResponse, none)

/-- Go `(*MockNATSClient).Close`. -/
def MockNATSClient.Close (m : MockNATSClient) : Option GoError := m.closeError

/-- Go `(*MockNATSClient).IsReady`. -/
def MockNATSClient.IsReady (m : MockNATSClient) : Option GoError := m.isReadyError

/-- Go `(*MockNATSClient).SetCheckAccessResponse`. -/
def MockNATSClient.SetCheckAccessResponse (m : MockNATSClient)
    (response : AccessCheckNATSResponse) : MockNATSClient :=
  { m with checkAccessResponse := response }

/-- Go `(*MockNATSClient).SetCheckAccessError`. -/
def MockNATSClient.SetCheckAccessError (m : MockNATSClient) (err : Option GoError) :
    MockNATSClient :=
  { m with checkAccessError := err }

/-- Go `(*MockNATSClient).SetCloseError`. -/
def MockNATSClient.SetCloseError (m : MockNATSClient) (err : Option GoError) :
    MockNATSClient :=
  { m with closeError := err }

/-- Go `(*MockNATSClient).SetIsReadyError`. -/
def MockNATSClient.SetIsReadyError (m : MockNATSClient) (err : Option GoError) :
    MockNATSClient :=
  { m with isReadyError := err }

/-- The mock seen through `NATSClientInterface`, as in `client: mockClient`. -/
def MockNATSClient.asClient (m : MockNATSClient) : NATSClientInterface :=
  { CheckAccess := m.CheckAccess, Close := m.Close, IsReady := m.IsReady }

/-! ## `internal/infrastructure/nats`: the checker under test -/

/-- Go `type NATSAccessControlChecker struct`, built in the tests with its one field
`client`. -/
structure NATSAccessControlChecker where
  client : NATSClientInterface

/-- Modelled from the spec: `convertFromNATSResponse` is not among the sources. Section 4.5:
a structural copy that keeps nil apart from empty and carries every key/value pair over
unchanged: a nil response gives nil, any other response gives a fresh map into which each
entry is stored in turn. -/
def NATSAccessControlChecker.convertFromNATSResponse (_n : NATSAccessControlChecker)
    (natsResponse : AccessCheckNATSResponse) : AccessCheckResult :=
  match natsResponse with
  | none => none
  | some m => some (m.entries.foldl (fun result kv => result.insert kv.1 kv.2) ∅)

/-- Modelled from the spec: `NATSAccessControlChecker.CheckAccess` is not among the sources.
Section 4.4: (1) delegates to the client's `CheckAccess` and wraps any error of it with the
fixed context `NATS access control check failed: `, (2) on success converts the raw
mapping, (3) returns the converted result with no error. -/
def NATSAccessControlChecker.CheckAccess (n : NATSAccessControlChecker) (subj : String)
    (data : Option (List Nat)) (timeout : Int) : AccessCheckResult × Option GoError :=
  let natsRequest : AccessCheckNATSRequest :=
    { Subject := subj, Message := data, Timeout := timeout }
  match n.client.CheckAccess natsRequest with
  | (_, some err) => (none, some (.wrap "NATS access control check failed: " err))
  | (natsResponse, none) => (n.convertFromNATSResponse natsResponse, none)

/-- Modelled from the spec: `NATSAccessControlChecker.Close` is not among the sources.
Section 4.4: forwards to the client's close, unchanged. -/
def NATSAccessControlChecker.Close (n : NATSAccessControlChecker) : Option GoError :=
  n.client.Close

/-- Modelled from the spec: `NATSAccessControlChecker.IsReady` is not among the sources.
Section 4.4: forwards to the client's readiness probe unchanged. -/
def NATSAccessControlChecker.IsReady (n : NATSAccessControlChecker) : Option GoError :=
  n.client.IsReady

/-- Go `len(b)` of a byte slice; a nil slice has length zero. -/
def sliceLen (b : Option (List Nat)) : Nat :=
  match b with
  | none => 0
  | some bytes => bytes.length

/-- The mapping `{"view": "allowed", "edit": "denied"}`. -/
def viewEditMap : StringMap :=
  ((∅ : StringMap).insert "view" "allowed").insert "edit" "denied"

/-- A request payload as in the tests: the bytes of `{"user_id": "user123"}`. -/
def samplePayload : List Nat := lit "\x7b\"user_id\": \"user123\"\x7d"

/-- A mock configured to answer successfully with `{"view": "allowed", "edit": "denied"}`,
as after `mock.SetCheckAccessResponse(...)` on a new mock. -/
def answeringMock : MockNATSClient :=
  NewMockNATSClient.SetCheckAccessResponse (some viewEditMap)

/-- A mock configured to fail, as after
`mock.SetCheckAccessError(errors.New("NATS connection timeout"))` on a new mock. -/
def failingMock : MockNATSClient :=
  NewMockNATSClient.SetCheckAccessError (some (.new "NATS connection timeout"))

/-! ## Library calls made by `cli.go` -/

/-- Go `utf8.first`: for a leading byte, the size of its encoding in the low three bits and
the index of the accepted range of the second byte in the high four; `0xF0` marks ASCII and
`0xF1` an invalid leading byte. -/
def utf8First (c : Nat) : Nat :=
  if c < 0x80 then 0xF0
  else if c < 0xC2 then 0xF1
  else if c < 0xE0 then 0x02
  else if c = 0xE0 then 0x13
  else if c < 0xED then 0x03
  else if c = 0xED then 0x23
  else if c < 0xF0 then 0x03
  else if c = 0xF0 then 0x34
  else if c < 0xF4 then 0x04
  else if c = 0xF4 then 0x44
  else 0xF1

/-- Go `utf8.acceptRanges`: lowest and highest accepted second byte. -/
def utf8AcceptRanges (i : Nat) : Nat × Nat :=
  match i with
  | 0 => (0x80, 0xBF)
  | 1 => (0xA0, 0xBF)
  | 2 => (0x80, 0x9F)
  | 3 => (0x90, 0xBF)
  | 4 => (0x80, 0x8F)
  | _ => (0, 0)

/-- Whether `c` is outside the continuation bytes `locb..hicb`. -/
def notContinuation (c : Nat) : Bool := c < 0x80 || 0xBF < c

/-- One turn of the loop of Go `utf8.RuneCountInString` at a position where the rest of the
string is `c :: rest`: the number of bytes the turn advances by (1 to 4). -/
def runeAdvance (c : Nat) (rest : List Nat) : Nat :=
  if c < 0x80 then 1
  else
    let x := utf8First c
    if x = 0xF1 then 1
    else
      let size := x % 8
      if size > 1 + rest.length then 1
      else
        let accept := utf8AcceptRanges (x / 16)
        if rest.getD 0 0 < accept.1 || accept.2 < rest.getD 0 0 then 1
        else if size = 2 then 2
        else if notContinuation (rest.getD 1 0) then 1
        else if size = 3 then 3
        else if notContinuation (rest.getD 2 0) then 1
        else size

/-- The loop of `utf8.RuneCountInString` over the rest of the string: `skip` bytes are still
part of the rune counted last; the next byte after them starts a turn, which counts one. -/
def runeCountFrom : Nat → List Nat → Nat
  | _, [] => 0
  | 0, c :: rest => 1 + runeCountFrom (runeAdvance c rest - 1) rest
  | skip + 1, _ :: rest => runeCountFrom skip rest

/-- Go `utf8.RuneCountInString`. -/
def RuneCountInString (s : GoString) : Nat := runeCountFrom 0 s

/-- The bytes of `a-z` and `A-Z`. -/
def asciiLetters : List Nat := List.range' 97 26 ++ List.range' 65 26

/-- The bytes of `a-z`, `A-Z`, `0-9`, `_` and `-`. -/
def asciiWord : List Nat := asciiLetters ++ List.range' 48 10 ++ [95, 45]

/-- A character class: one byte out of `cs`. -/
def charClass (cs : List Nat) : RegularExpression Nat :=
  (cs.map RegularExpression.char).foldr (· + ·) 0

/-- The repetition `r+`: once, then any number of times. -/
def rePlus (r : RegularExpression Nat) : RegularExpression Nat := r * r.star

/-- The text of the pattern that `cli.go` validates `parent` against. -/
def parentPatternText : GoString := lit "^[a-zA-Z]+:[a-zA-Z0-9_-]+$"

/-- The expression between the anchors of `^[a-zA-Z]+:[a-zA-Z0-9_-]+$`. -/
def parentPattern : RegularExpression Nat :=
  rePlus (charClass asciiLetters) * RegularExpression.char 58 * rePlus (charClass asciiWord)

/-- Go `regexp.Compile` on the patterns this program uses: the expression between `^` and
`$`, to be matched against the whole text; any other pattern text is not compiled here. -/
def regexpCompile (p : GoString) : Option (RegularExpression Nat) :=
  if p = parentPatternText then some parentPattern else none

/-- An error value built by the goa validation helpers or by `fmt.Errorf`. -/
inductive GoaError where
  /-- Result of `goa.InvalidEnumValueError(name, val, allowed)`. -/
  | InvalidEnumValueError (name val : GoString) (allowed : List GoString)
  /-- Result of `goa.InvalidLengthError(name, target, ln, value, min)`. -/
  | InvalidLengthError (name target : GoString) (ln value : Nat) (min : Bool)
  /-- Result of `goa.InvalidPatternError(name, target, pattern)`. -/
  | InvalidPatternError (name target pattern : GoString)
  /-- Result of `goa.InvalidArgError`, for a pattern that does not compile. -/
  | InvalidArgError (name pattern : GoString)
  /-- Result of `goa.MergeErrors` on two errors: the messages joined. -/
  | merged (e o : GoaError)
  /-- Result of `fmt.Errorf("invalid JSON for tags, ...", err, example)`. -/
  | invalidJSONForTags (cause : String)
deriving DecidableEq

/-- Go `goa.MergeErrors(err, other)`: nil when both are nil, the one that is not nil when
the other is, else the two merged. -/
def MergeErrors (err other : Option GoaError) : Option GoaError :=
  match err, other with
  | none, none => none
  | none, some o => some o
  | some e, none => some e
  | some e, some o => some (.merged e o)

/-- Go `goa.ValidatePattern(name, val, p)`: `regexp.MatchString(p, val)`; an error when the
pattern does not compile or `val` does not match. -/
def ValidatePattern (name val p : GoString) : Option GoaError :=
  match regexpCompile p with
  | none => some (.InvalidArgError name p)
  | some re => if re.rmatch val then none else some (.InvalidPatternError name val p)

/-! ## `gen/http/query_svc/client/cli.go` -/

/-- Go `querysvc.QueryResourcesPayload`, with the fields that `cli.go` assigns; a nil pointer
or nil slice is `none`. -/
structure QueryResourcesPayload where
  Version : GoString
  Name : Option GoString
  Parent : Option GoString
  Type_ : Option GoString
  Tags : Option (List GoString)
  Sort_ : GoString
  PageToken : Option GoString
  BearerToken : GoString
deriving DecidableEq

/-- Go `BuildQueryResourcesPayload`. `jsonUnmarshal` stands for `json.Unmarshal` into a
`[]string`: the decoded slice, or the message of the decoding error. Each block of the
source that validates ends in `if err != nil { return nil, err }`; here the block yields its
variable together with the new `err`, and the return is taken right after the block (when
the block is skipped `err` is unchanged, and it was nil on entry). -/
def BuildQueryResourcesPayload (jsonUnmarshal : GoString → Except String (Option (List GoString)))
    (querySvcQueryResourcesVersion querySvcQueryResourcesName querySvcQueryResourcesParent
      querySvcQueryResourcesType querySvcQueryResourcesTags querySvcQueryResourcesSort
      querySvcQueryResourcesPageToken querySvcQueryResourcesBearerToken : GoString) :
    Option QueryResourcesPayload × Option GoaError :=
  let err : Option GoaError := none
  let version := querySvcQueryResourcesVersion
  let err :=
    if ¬ (version = lit "1") then
      MergeErrors err (some (.InvalidEnumValueError (lit "version") version [lit "1"]))
    else err
  if err.isSome then (none, err) else
  let (name, err) : Option GoString × Option GoaError :=
    if querySvcQueryResourcesName ≠ [] then
      let name := querySvcQueryResourcesName
      if RuneCountInString name < 1 then
        (some name, MergeErrors err (some (.InvalidLengthError (lit "name") name
          (RuneCountInString name) 1 true)))
      else (some name, err)
    else (none, err)
  if err.isSome then (none, err) else
  let (parent, err) : Option GoString × Option GoaError :=
    if querySvcQueryResourcesParent ≠ [] then
      let parent := querySvcQueryResourcesParent
      (some parent, MergeErrors err (ValidatePattern (lit "parent") parent parentPatternText))
    else (none, err)
  if err.isSome then (none, err) else
  let type_ : Option GoString :=
    if querySvcQueryResourcesType ≠ [] then some querySvcQueryResourcesType else none
  let tagsStep : Except String (Option (List GoString)) :=
    if querySvcQueryResourcesTags ≠ [] then jsonUnmarshal querySvcQueryResourcesTags
    else .ok none
  match tagsStep with
  | .error cause => (none, some (.invalidJSONForTags cause))
  | .ok tags =>
  let (sort, err) : GoString × Option GoaError :=
    if querySvcQueryResourcesSort ≠ [] then
      let sort := querySvcQueryResourcesSort
      if ¬ (sort = lit "name_asc" ∨ sort = lit "name_desc" ∨ sort = lit "updated_asc"
          ∨ sort = lit "updated_desc") then
        (sort, MergeErrors err (some (.InvalidEnumValueError (lit "sort") sort
          [lit "name_asc", lit "name_desc", lit "updated_asc", lit "updated_desc"])))
      else (sort, err)
    else ([], err)
  if err.isSome then (none, err) else
  let pageToken : Option GoString :=
    if querySvcQueryResourcesPageToken ≠ [] then some querySvcQueryResourcesPageToken else none
  let bearerToken := querySvcQueryResourcesBearerToken
  (some
    { Version := version, Name := name, Parent := parent, Type_ := type_, Tags := tags,
      Sort_ := sort, PageToken := pageToken, BearerToken := bearerToken }, none)

/-- The text that the expression `^[a-zA-Z]+:[a-zA-Z0-9_-]+$` describes: one or more ASCII
letters, a colon, one or more ASCII letters, digits, underscores or hyphens, and nothing
else. -/
def MatchesParentPattern (s : GoString) : Prop :=
  ∃ l r : List Nat, s = l ++ 58 :: r ∧ l ≠ [] ∧ (∀ c ∈ l, c ∈ asciiLetters) ∧
    r ≠ [] ∧ ∀ c ∈ r, c ∈ asciiWord

/-- A stand-in for `json.Unmarshal` that rejects every input. -/
def jsonReject : GoString → Except String (Option (List GoString)) :=
  fun _ => .error "invalid character"

/-! ## Properties of `PageTokenSecret` -/

theorem copy_length (dst src : List Nat) : (copy dst src).length = dst.length := by
  simp only [copy, List.length_append, List.length_take, List.length_drop]
  omega

theorem copy_getElem?_lt (dst src : List Nat) (i : Nat) (h : i < min src.length dst.length) :
    (copy dst src)[i]? = src[i]? := by
  have h1 : i < min dst.length src.length := by omega
  simp only [copy]
  rw [List.getElem?_append_left (by simp only [List.length_take]; omega)]
  rw [List.getElem?_take_of_lt h1]

theorem copy_getElem?_ge (dst src : List Nat) (i : Nat) (h : src.length ≤ i) :
    (copy dst src)[i]? = dst[i]? := by
  simp only [copy]
  by_cases hd : i < dst.length
  · have hm : min dst.length src.length = src.length := by omega
    rw [hm, List.getElem?_append_right (by simp only [List.length_take]; omega)]
    simp only [List.length_take, List.getElem?_drop]
    congr 1
    omega
  · have h2 : dst.length ≤ i := by omega
    have hlen : (List.take (min dst.length src.length) src
        ++ List.drop (min dst.length src.length) dst).length ≤ i := by
      simp only [List.length_append, List.length_take, List.length_drop]
      omega
    rw [List.getElem?_eq_none hlen, List.getElem?_eq_none h2]

theorem copy_congr_take (dst src src2 : List Nat)
    (h : src2.take dst.length = src.take dst.length) : copy dst src2 = copy dst src := by
  have hl : min dst.length src2.length = min dst.length src.length := by
    have := congrArg List.length h
    simpa only [List.length_take] using this
  have ht : ∀ s : List Nat, s.take (min dst.length s.length) = s.take dst.length := by
    intro s
    rw [List.take_eq_take]
    omega
  simp only [copy]
  rw [ht src2, ht src, h, hl]

theorem PageTokenSecret_first (env : Environ) (v : GoString)
    (hv : env pageTokenSecretName = some v) (hne : v ≠ []) :
    PageTokenSecret env Globals.zero
      = .returned ⟨copy (List.replicate 32 0) v, true⟩ (copy (List.replicate 32 0) v) := by
  simp [PageTokenSecret, Globals.zero, osGetenv, hv, hne]

theorem PageTokenSecret_done (env : Environ) (g : Globals) (h : g.doOncePageTokenSecret = true) :
    PageTokenSecret env g = .returned g g.pageTokenSecret := by
  simp [PageTokenSecret, h]

theorem replicate_zero_getElem? (i : Nat) (hi : i < 32) :
    (List.replicate 32 0)[i]? = some 0 := by
  rw [List.getElem?_replicate, if_pos hi]

theorem getD_copy_zero (v : GoString) (i : Nat) (hi : i < 32) :
    (copy (List.replicate 32 0) v).getD i 0 = v.getD i 0 := by
  simp only [List.getD_eq_getElem?_getD]
  by_cases h : i < v.length
  · rw [copy_getElem?_lt _ _ _ (by simp only [List.length_replicate]; omega)]
  · have hv : v[i]? = none := List.getElem?_eq_none (by omega)
    rw [copy_getElem?_ge _ _ _ (by omega), hv, replicate_zero_getElem? i hi]
    rfl

/-- C1: for a non-empty configured value `v`, the first call returns a 32-byte secret whose
byte `i` is byte `i` of `v` for `i < min (len v) 32` and is 0 for `len v ≤ i < 32`; a value
that agrees with `v` on the first 32 bytes gives the very same result. -/
theorem PageTokenSecret_secret_bytes (env : Environ) (v : GoString)
    (hv : env pageTokenSecretName = some v) (hne : v ≠ []) :
    ∃ g secret, PageTokenSecret env Globals.zero = .returned g secret ∧
      secret.length = 32 ∧
      (∀ i, i < min v.length 32 → secret[i]? = v[i]?) ∧
      (∀ i, v.length ≤ i → i < 32 → secret[i]? = some 0) ∧
      (∀ (env2 : Environ) (w : GoString), env2 pageTokenSecretName = some w →
        w.take 32 = v.take 32 → PageTokenSecret env2 Globals.zero = .returned g secret) := by
  refine ⟨_, _, PageTokenSecret_first env v hv hne, ?_, ?_, ?_, ?_⟩
  · rw [copy_length, List.length_replicate]
  · intro i hi
    exact copy_getElem?_lt _ _ _ (by simp only [List.length_replicate]; omega)
  · intro i h1 h2
    rw [copy_getElem?_ge _ _ _ h1]
    exact replicate_zero_getElem? i h2
  · intro env2 w hw hwv
    have hwne : w ≠ [] := by
      intro h0
      subst h0
      cases v with
      | nil => exact hne rfl
      | cons a t => simp at hwv
    rw [PageTokenSecret_first env2 w hw hwne]
    have hc : copy (List.replicate 32 0) w = copy (List.replicate 32 0) v :=
      copy_congr_take _ _ _ (by simpa only [List.length_replicate] using hwv)
    rw [hc]

/-- The value `ab`: bytes 97 and 98, then thirty zero bytes. -/
theorem PageTokenSecret_secret_bytes_witness :
    envWith (lit "ab") pageTokenSecretName = some (lit "ab") ∧ lit "ab" ≠ [] ∧
    ∃ g secret, PageTokenSecret (envWith (lit "ab")) Globals.zero = .returned g secret ∧
      secret.length = 32 ∧
      (∀ i, i < min (lit "ab").length 32 → secret[i]? = (lit "ab")[i]?) ∧
      (∀ i, (lit "ab").length ≤ i → i < 32 → secret[i]? = some 0) ∧
      (∀ (env2 : Environ) (w : GoString), env2 pageTokenSecretName = some w →
        w.take 32 = (lit "ab").take 32 →
        PageTokenSecret env2 Globals.zero = .returned g secret) :=
  ⟨by decide, by decide,
    PageTokenSecret_secret_bytes (envWith (lit "ab")) (lit "ab") (by decide) (by decide)⟩

theorem laterCalls_done (envs : List Environ) (g : Globals)
    (h : g.doOncePageTokenSecret = true) :
    laterCalls envs g = envs.map (fun _ => Outcome.returned g g.pageTokenSecret) := by
  induction envs with
  | nil => rfl
  | cons env rest ih =>
    simp only [laterCalls, PageTokenSecret_done env g h, List.map_cons, ih]

/-- C2: once a first call has returned a secret, every later call, under whatever
environment each of them runs, returns that same secret, leaves the globals as they are and
never exits: the environment is not consulted again. -/
theorem PageTokenSecret_initialized_once (env : Environ) (g : Globals) (secret : List Nat)
    (h : PageTokenSecret env Globals.zero = .returned g secret) (envs : List Environ) :
    laterCalls envs g = envs.map (fun _ => Outcome.returned g secret) := by
  have hkey : g.doOncePageTokenSecret = true ∧ g.pageTokenSecret = secret := by
    unfold PageTokenSecret at h
    simp only [Globals.zero, Bool.false_eq_true, if_false] at h
    split at h
    · cases h
    · cases h
      exact ⟨rfl, rfl⟩
  rw [laterCalls_done envs g hkey.1, hkey.2]

/-- After a first call under the value `ab`: a call with the variable unset, one with
another value and one with the empty value. -/
theorem PageTokenSecret_initialized_once_witness :
    PageTokenSecret (envWith (lit "ab")) Globals.zero
      = .returned ⟨copy (List.replicate 32 0) (lit "ab"), true⟩
          (copy (List.replicate 32 0) (lit "ab")) ∧
    laterCalls [envUnset, envWith (lit "other"), envWith []]
        ⟨copy (List.replicate 32 0) (lit "ab"), true⟩
      = [envUnset, envWith (lit "other"), envWith []].map
          (fun _ => Outcome.returned ⟨copy (List.replicate 32 0) (lit "ab"), true⟩
            (copy (List.replicate 32 0) (lit "ab"))) :=
  ⟨by decide,
    PageTokenSecret_initialized_once (envWith (lit "ab"))
      ⟨copy (List.replicate 32 0) (lit "ab"), true⟩ (copy (List.replicate 32 0) (lit "ab"))
      (by decide) [envUnset, envWith (lit "other"), envWith []]⟩

/-- C3: the first call exits the process, returning nothing, exactly when
`PAGE_TOKEN_SECRET` is unset or empty, and returns a 32-byte secret exactly when the
variable holds a non-empty value. -/
theorem PageTokenSecret_fatal_iff (env : Environ) :
    ((∃ msg, PageTokenSecret env Globals.zero = .fatal msg) ↔
      (env pageTokenSecretName = none ∨ env pageTokenSecretName = some [])) ∧
    ((∃ g secret, PageTokenSecret env Globals.zero = .returned g secret ∧ secret.length = 32) ↔
      ∃ v, env pageTokenSecretName = some v ∧ v ≠ []) := by
  cases hv : env pageTokenSecretName with
  | none =>
    have h : PageTokenSecret env Globals.zero
        = .fatal "environment variable PAGE_TOKEN_SECRET must be set with 32 characters" := by
      simp [PageTokenSecret, Globals.zero, osGetenv, hv]
    simp [h]
  | some v =>
    by_cases hne : v = []
    · subst hne
      have h : PageTokenSecret env Globals.zero
          = .fatal "environment variable PAGE_TOKEN_SECRET must be set with 32 characters" := by
        simp [PageTokenSecret, Globals.zero, osGetenv, hv]
      simp [h]
    · rw [PageTokenSecret_first env v hv hne]
      refine ⟨by simp [hne], fun _ => ⟨v, rfl, hne⟩, fun _ => ⟨_, _, rfl, ?_⟩⟩
      rw [copy_length, List.length_replicate]

theorem getD_differs_of_ne (s1 s2 : List Nat) (h1 : s1.length = 32) (h2 : s2.length = 32) :
    s1 ≠ s2 ↔ ∃ i, i < 32 ∧ s1.getD i 0 ≠ s2.getD i 0 := by
  constructor
  · intro hne
    by_contra hcon
    apply hne
    apply List.ext_getElem? 
    intro i
    by_cases hi : i < 32
    · have hget : s1.getD i 0 = s2.getD i 0 := not_not.mp (fun hh => hcon ⟨i, hi, hh⟩)
      have hi1 : i < s1.length := by omega
      have hi2 : i < s2.length := by omega
      rw [List.getD_eq_getElem _ _ hi1, List.getD_eq_getElem _ _ hi2] at hget
      rw [List.getElem?_eq_getElem hi1, List.getElem?_eq_getElem hi2, hget]
    · rw [List.getElem?_eq_none (by omega), List.getElem?_eq_none (by omega)]
  · rintro ⟨i, _, hi⟩ heq
    exact hi (by rw [heq])

/-- C4 (amended): two processes whose environments give `PAGE_TOKEN_SECRET` non-empty values
both obtain a secret; equal values give equal secrets, and the secrets differ exactly when
the values differ at some index below 32, a value too short to have that index counting as
0 there. -/
theorem PageTokenSecret_secrets_differ_iff (env1 env2 : Environ) (v1 v2 : GoString)
    (h1 : env1 pageTokenSecretName = some v1) (h2 : env2 pageTokenSecretName = some v2)
    (hne1 : v1 ≠ []) (hne2 : v2 ≠ []) :
    ∃ g1 s1 g2 s2, PageTokenSecret env1 Globals.zero = .returned g1 s1 ∧
      PageTokenSecret env2 Globals.zero = .returned g2 s2 ∧
      (v1 = v2 → s1 = s2) ∧
      (s1 ≠ s2 ↔ ∃ i, i < 32 ∧ v1.getD i 0 ≠ v2.getD i 0) := by
  refine ⟨_, _, _, _, PageTokenSecret_first env1 v1 h1 hne1,
    PageTokenSecret_first env2 v2 h2 hne2, ?_, ?_⟩
  · intro h
    rw [h]
  · rw [getD_differs_of_ne _ _ (by rw [copy_length, List.length_replicate])
      (by rw [copy_length, List.length_replicate])]
    constructor
    · rintro ⟨i, hi, h⟩
      exact ⟨i, hi, by rwa [getD_copy_zero v1 i hi, getD_copy_zero v2 i hi] at h⟩
    · rintro ⟨i, hi, h⟩
      exact ⟨i, hi, by rwa [getD_copy_zero v1 i hi, getD_copy_zero v2 i hi]⟩

/-- The values `ab` and `ac`, which differ at index 1. -/
theorem PageTokenSecret_secrets_differ_iff_witness :
    envWith (lit "ab") pageTokenSecretName = some (lit "ab") ∧
    envWith (lit "ac") pageTokenSecretName = some (lit "ac") ∧
    lit "ab" ≠ [] ∧ lit "ac" ≠ [] ∧
    ∃ g1 s1 g2 s2, PageTokenSecret (envWith (lit "ab")) Globals.zero = .returned g1 s1 ∧
      PageTokenSecret (envWith (lit "ac")) Globals.zero = .returned g2 s2 ∧
      (lit "ab" = lit "ac" → s1 = s2) ∧
      (s1 ≠ s2 ↔ ∃ i, i < 32 ∧ (lit "ab").getD i 0 ≠ (lit "ac").getD i 0) :=
  ⟨by decide, by decide, by decide, by decide,
    PageTokenSecret_secrets_differ_iff (envWith (lit "ab")) (envWith (lit "ac")) (lit "ab")
      (lit "ac") (by decide) (by decide) (by decide) (by decide)⟩

/-- C4 (counterexample): two different non-empty values of 33 bytes that share their first
32 bytes give the same 32-byte secret. -/
theorem PageTokenSecret_distinct_values_same_secret :
    List.replicate 32 97 ++ [98] ≠ List.replicate 32 97 ++ [99] ∧
    List.replicate 32 97 ++ [98] ≠ [] ∧ List.replicate 32 97 ++ [99] ≠ [] ∧
    PageTokenSecret (envWith (List.replicate 32 97 ++ [98])) Globals.zero
      = .returned ⟨List.replicate 32 97, true⟩ (List.replicate 32 97) ∧
    PageTokenSecret (envWith (List.replicate 32 97 ++ [99])) Globals.zero
      = .returned ⟨List.replicate 32 97, true⟩ (List.replicate 32 97) := by
  decide

/-! ## Properties of the access-control checker -/

theorem lookup_foldl_insert (l : List (Sigma fun _ : String => String)) (hl : l.NodupKeys)
    (acc : StringMap) (k : String) :
    (l.foldl (fun result kv => result.insert kv.1 kv.2) acc).lookup k
      = match List.dlookup k l with
        | some v => some v
        | none => acc.lookup k := by
  induction l generalizing acc with
  | nil => simp
  | cons hd tl ih =>
    obtain ⟨a, b⟩ := hd
    rw [List.nodupKeys_cons] at hl
    rw [List.foldl_cons, ih hl.2]
    by_cases hk : k = a
    · subst hk
      have hnone : List.dlookup k tl = none := List.dlookup_eq_none.mpr hl.1
      rw [hnone, List.dlookup_cons_eq]
      exact AList.lookup_insert acc
    · rw [List.dlookup_cons_ne tl ⟨a, b⟩ hk]
      cases List.dlookup k tl with
      | some v => rfl
      | none => exact AList.lookup_insert_ne hk

theorem lookup_copy (m : StringMap) (k : String) :
    (m.entries.foldl (fun result kv => result.insert kv.1 kv.2) (∅ : StringMap)).lookup k
      = m.lookup k := by
  rw [lookup_foldl_insert m.entries m.nodupKeys]
  show (match List.dlookup k m.entries with
    | some v => some v
    | none => AList.lookup k (∅ : StringMap)) = List.dlookup k m.entries
  cases List.dlookup k m.entries with
  | some v => rfl
  | none => exact AList.lookup_empty k

theorem entries_copy_perm (m : StringMap) :
    (m.entries.foldl (fun result kv => result.insert kv.1 kv.2) (∅ : StringMap)).entries.Perm
      m.entries := by
  apply List.lookup_ext (AList.nodupKeys _) m.nodupKeys
  intro x y
  have h := lookup_copy m x
  unfold AList.lookup at h
  rw [h]

theorem DeepEqual_convert (n : NATSAccessControlChecker) (r : AccessCheckNATSResponse) :
    DeepEqual (n.convertFromNATSResponse r) r := by
  cases r with
  | none => exact True.intro
  | some m => exact entries_copy_perm m

theorem checkFailed_contains (cause : GoError) :
    stringsContains (GoError.wrap "NATS access control check failed: " cause).Error
      "NATS access control check failed" := by
  refine ⟨[], ": ".data ++ cause.Error.data, ?_⟩
  simp only [GoError.Error, String.data_append, List.nil_append]
  rfl

/-- C5: the conversion of a raw response is lossless: nil gives nil and nothing else does,
the empty map gives the empty map, and the result has the same keys as the response, the
same value at every key and, entry for entry, the same content. -/
theorem convertFromNATSResponse_lossless (n : NATSAccessControlChecker) :
    n.convertFromNATSResponse none = none ∧
    n.convertFromNATSResponse (some ∅) = some ∅ ∧
    (∀ r, n.convertFromNATSResponse r = none ↔ r = none) ∧
    (∀ m : StringMap, ∃ result : StringMap,
      n.convertFromNATSResponse (some m) = some result ∧
      (∀ k, k ∈ result ↔ k ∈ m) ∧
      (∀ k, result.lookup k = m.lookup k) ∧
      result.entries.Perm m.entries) ∧
    (∀ r, DeepEqual (n.convertFromNATSResponse r) r) := by
  refine ⟨rfl, rfl, ?_, ?_, DeepEqual_convert n⟩
  · intro r
    cases r with
    | none => simp [NATSAccessControlChecker.convertFromNATSResponse]
    | some m => simp [NATSAccessControlChecker.convertFromNATSResponse]
  · intro m
    refine ⟨_, rfl, ?_, lookup_copy m, entries_copy_perm m⟩
    intro k
    rw [← AList.lookup_isSome, ← AList.lookup_isSome, lookup_copy m k]

/-- C6: for a non-empty subject, a non-empty payload and any timeout, when the client
answers the request with the mapping `M` and no error, `CheckAccess` returns no error and a
result deeply equal to `M`, with the same value as `M` at every key. -/
theorem CheckAccess_returns_mapping (n : NATSAccessControlChecker) (subj : String)
    (data : Option (List Nat)) (timeout : Int) (M : AccessCheckNATSResponse)
    (_hsubj : subj ≠ "") (_hdata : sliceLen data ≠ 0)
    (hclient : n.client.CheckAccess ⟨subj, data, timeout⟩ = (M, none)) :
    ∃ result, n.CheckAccess subj data timeout = (result, none) ∧ DeepEqual result M ∧
      ∀ k, mapIndex result k = mapIndex M k := by
  refine ⟨n.convertFromNATSResponse M, ?_, DeepEqual_convert n M, ?_⟩
  · simp only [NATSAccessControlChecker.CheckAccess, hclient]
  · intro k
    cases M with
    | none => rfl
    | some m => exact lookup_copy m k

/-- C7: when the client's `CheckAccess` returns an error `e`, the checker returns no result
and an error whose message is `NATS access control check failed: ` followed by the message
of `e`, so it contains both the fixed text and the message of `e`. -/
theorem CheckAccess_wraps_error (n : NATSAccessControlChecker) (subj : String)
    (data : Option (List Nat)) (timeout : Int) (r : AccessCheckNATSResponse) (e : GoError)
    (hclient : n.client.CheckAccess ⟨subj, data, timeout⟩ = (r, some e)) :
    ∃ err, n.CheckAccess subj data timeout = (none, some err) ∧
      err.Error = "NATS access control check failed: " ++ e.Error ∧
      stringsContains err.Error "NATS access control check failed" ∧
      stringsContains err.Error e.Error := by
  refine ⟨.wrap "NATS access control check failed: " e, ?_, rfl, checkFailed_contains e, ?_⟩
  · simp only [NATSAccessControlChecker.CheckAccess, hclient]
  · refine ⟨"NATS access control check failed: ".data, [], ?_⟩
    simp only [GoError.Error, String.data_append, List.append_nil]

/-- C9: `Close` returns what the client's `Close` returns: nil exactly when the client
returns nil, and otherwise the client's error itself, with the same message; with the mock
as client that is its `closeError`. -/
theorem Close_forwards (n : NATSAccessControlChecker) :
    n.Close = n.client.Close ∧
    (n.Close = none ↔ n.client.Close = none) ∧
    n.Close.map GoError.Error = n.client.Close.map GoError.Error ∧
    ∀ m : MockNATSClient, (NATSAccessControlChecker.mk m.asClient).Close = m.closeError :=
  ⟨rfl, Iff.rfl, rfl, fun _ => rfl⟩

/-- The mock answering `view: allowed, edit: denied`, with a zero timeout. -/
theorem CheckAccess_returns_mapping_witness :
    "access.check.project" ≠ "" ∧ sliceLen (some samplePayload) ≠ 0 ∧
    answeringMock.asClient.CheckAccess ⟨"access.check.project", some samplePayload, 0⟩
      = (some viewEditMap, none) ∧
    ∃ result,
      (NATSAccessControlChecker.mk answeringMock.asClient).CheckAccess "access.check.project"
        (some samplePayload) 0 = (result, none) ∧
      DeepEqual result (some viewEditMap) ∧
      ∀ k, mapIndex result k = mapIndex (some viewEditMap) k :=
  ⟨by decide, by decide, rfl,
    CheckAccess_returns_mapping (NATSAccessControlChecker.mk answeringMock.asClient)
      "access.check.project" (some samplePayload) 0 (some viewEditMap) (by decide) (by decide)
      rfl⟩

/-- The mock failing with `NATS connection timeout`. -/
theorem CheckAccess_wraps_error_witness :
    failingMock.asClient.CheckAccess ⟨"access.check.project", some samplePayload, 5000000000⟩
      = (none, some (.new "NATS connection timeout")) ∧
    ∃ err,
      (NATSAccessControlChecker.mk failingMock.asClient).CheckAccess "access.check.project"
        (some samplePayload) 5000000000 = (none, some err) ∧
      err.Error = "NATS access control check failed: "
        ++ (GoError.new "NATS connection timeout").Error ∧
      stringsContains err.Error "NATS access control check failed" ∧
      stringsContains err.Error (GoError.new "NATS connection timeout").Error :=
  ⟨rfl,
    CheckAccess_wraps_error (NATSAccessControlChecker.mk failingMock.asClient)
      "access.check.project" (some samplePayload) 5000000000 none
      (.new "NATS connection timeout") rfl⟩

/-! ## Properties of `BuildQueryResourcesPayload` -/

theorem RuneCountInString_pos (c : Nat) (rest : List Nat) :
    1 ≤ RuneCountInString (c :: rest) := by
  simp only [RuneCountInString, runeCountFrom]
  omega

theorem mem_charClass (cs : List Nat) (x : List Nat) :
    x ∈ (charClass cs).matches' ↔ ∃ c, c ∈ cs ∧ x = [c] := by
  induction cs with
  | nil =>
    simp only [charClass, List.map_nil, List.foldr_nil, RegularExpression.matches'_zero,
      List.not_mem_nil, false_and, exists_false, iff_false]
    exact fun h => h
  | cons a t ih =>
    have hfold : charClass (a :: t) = RegularExpression.char a + charClass t := rfl
    rw [hfold, RegularExpression.matches'_add, Language.mem_add, ih,
      RegularExpression.matches'_char]
    constructor
    · rintro (h | ⟨c, hc, rfl⟩)
      · exact ⟨a, List.mem_cons_self a t, h⟩
      · exact ⟨c, List.mem_cons_of_mem a hc, rfl⟩
    · rintro ⟨c, hc, rfl⟩
      rcases List.mem_cons.mp hc with h | h
      · left
        rw [h]
        rfl
      · exact Or.inr ⟨c, h, rfl⟩

theorem mem_charClass_kstar (cs : List Nat) (x : List Nat) :
    x ∈ KStar.kstar (charClass cs).matches' ↔ ∀ c ∈ x, c ∈ cs := by
  rw [Language.mem_kstar]
  constructor
  · rintro ⟨L, rfl, hL⟩
    induction L with
    | nil => simp
    | cons y ys ih =>
      intro c hc
      rw [List.flatten_cons, List.mem_append] at hc
      rcases hc with hc | hc
      · obtain ⟨d, hd, rfl⟩ := (mem_charClass cs y).mp (hL y (List.mem_cons_self y ys))
        rw [List.mem_singleton] at hc
        rw [hc]
        exact hd
      · exact ih (fun z hz => hL z (List.mem_cons_of_mem y hz)) c hc
  · intro h
    refine ⟨x.map (fun c => [c]), ?_, ?_⟩
    · clear h
      induction x with
      | nil => rfl
      | cons c t ih =>
        rw [List.map_cons, List.flatten_cons, ← ih]
        rfl
    · intro y hy
      obtain ⟨c, hc, rfl⟩ := List.mem_map.mp hy
      exact (mem_charClass cs [c]).mpr ⟨c, h c hc, rfl⟩

theorem mem_rePlus_charClass (cs : List Nat) (x : List Nat) :
    x ∈ (rePlus (charClass cs)).matches' ↔ x ≠ [] ∧ ∀ c ∈ x, c ∈ cs := by
  rw [rePlus, RegularExpression.matches'_mul, RegularExpression.matches'_star,
    Language.mem_mul]
  constructor
  · rintro ⟨a, ha, b, hb, rfl⟩
    obtain ⟨c, hc, rfl⟩ := (mem_charClass cs a).mp ha
    refine ⟨by simp, ?_⟩
    intro d hd
    rcases List.mem_cons.mp hd with h | h
    · rw [h]
      exact hc
    · exact (mem_charClass_kstar cs b).mp hb d h
  · rintro ⟨hne, h⟩
    cases x with
    | nil => exact absurd rfl hne
    | cons c t =>
      exact ⟨[c], (mem_charClass cs [c]).mpr ⟨c, h c (List.mem_cons_self c t), rfl⟩, t,
        (mem_charClass_kstar cs t).mpr (fun d hd => h d (List.mem_cons_of_mem c hd)), rfl⟩

theorem rmatch_parentPattern (s : GoString) :
    parentPattern.rmatch s = true ↔ MatchesParentPattern s := by
  rw [RegularExpression.rmatch_iff_matches', parentPattern, RegularExpression.matches'_mul,
    RegularExpression.matches'_mul, RegularExpression.matches'_char]
  constructor
  · intro h
    obtain ⟨ab, hab, r, hr, rfl⟩ := Language.mem_mul.mp h
    obtain ⟨l, hl, b, hb, rfl⟩ := Language.mem_mul.mp hab
    have hb58 : b = [58] := hb
    subst hb58
    obtain ⟨hl1, hl2⟩ := (mem_rePlus_charClass asciiLetters l).mp hl
    obtain ⟨hr1, hr2⟩ := (mem_rePlus_charClass asciiWord r).mp hr
    exact ⟨l, r, by simp, hl1, hl2, hr1, hr2⟩
  · rintro ⟨l, r, rfl, hl1, hl2, hr1, hr2⟩
    refine Language.mem_mul.mpr ⟨l ++ [58], ?_, r, ?_, by simp⟩
    · exact Language.mem_mul.mpr
        ⟨l, (mem_rePlus_charClass asciiLetters l).mpr ⟨hl1, hl2⟩, [58], rfl, rfl⟩
    · exact (mem_rePlus_charClass asciiWord r).mpr ⟨hr1, hr2⟩

theorem ValidatePattern_parent (val : GoString) :
    ValidatePattern (lit "parent") val parentPatternText = none ↔ MatchesParentPattern val := by
  rw [← rmatch_parentPattern]
  simp only [ValidatePattern, regexpCompile, if_true]
  by_cases h : parentPattern.rmatch val = true
  · simp [h]
  · simp [h]

/-- C10: with an empty `tags` argument the call succeeds exactly when `version` is `1`,
`parent` is empty or is, in full, letters, a colon and then letters, digits, underscores or
hyphens, and `sort` is empty or one of the four sort orders; a failure returns a nil
payload and a success a payload; `name`, `type`, the page token and the bearer token play
no part, a non-empty string having a rune count of at least 1. -/
theorem BuildQueryResourcesPayload_succeeds_iff
    (jsonUnmarshal : GoString → Except String (Option (List GoString)))
    (version name parent type_ sort pageToken bearerToken : GoString) :
    ((BuildQueryResourcesPayload jsonUnmarshal version name parent type_ [] sort pageToken
        bearerToken).2 = none ↔
      (version = lit "1" ∧ (parent = [] ∨ MatchesParentPattern parent) ∧
        (sort = [] ∨ sort ∈ [lit "name_asc", lit "name_desc", lit "updated_asc",
          lit "updated_desc"]))) ∧
    ((BuildQueryResourcesPayload jsonUnmarshal version name parent type_ [] sort pageToken
        bearerToken).1 = none ↔
      (BuildQueryResourcesPayload jsonUnmarshal version name parent type_ [] sort pageToken
        bearerToken).2 ≠ none) ∧
    (∀ (c : Nat) (rest : List Nat), 1 ≤ RuneCountInString (c :: rest)) := by
  have hr : RuneCountInString name = 0 ↔ name = [] := by
    cases name with
    | nil => exact ⟨fun _ => rfl, fun _ => rfl⟩
    | cons c rest =>
      have := RuneCountInString_pos c rest
      constructor
      · intro h0
        omega
      · intro h0
        cases h0
  have hsortmem : sort ∈ [lit "name_asc", lit "name_desc", lit "updated_asc",
      lit "updated_desc"] ↔ (sort = lit "name_asc" ∨ sort = lit "name_desc"
        ∨ sort = lit "updated_asc" ∨ sort = lit "updated_desc") := by
    simp only [List.mem_cons, List.mem_singleton, List.not_mem_nil, or_false]
  have hpat : (parent = [] ∨ MatchesParentPattern parent) ↔
      (parent = [] ∨ ValidatePattern (lit "parent") parent parentPatternText = none) := by
    rw [ValidatePattern_parent]
  rw [hsortmem, hpat]
  refine ⟨?_, ?_, RuneCountInString_pos⟩
  all_goals
    by_cases hver : version = lit "1"
    · by_cases hn : name = []
      all_goals
        by_cases hpar : parent = []
        · by_cases hsort : sort = []
          · simp [BuildQueryResourcesPayload, MergeErrors, hver, hr, hn, hpar, hsort]
          · by_cases hs : (sort = lit "name_asc" ∨ sort = lit "name_desc"
                ∨ sort = lit "updated_asc" ∨ sort = lit "updated_desc")
            · simp [BuildQueryResourcesPayload, MergeErrors, hver, hr, hn, hpar, hsort, hs]
            · simp [BuildQueryResourcesPayload, MergeErrors, hver, hr, hn, hpar, hsort, hs]
        · cases hvp : ValidatePattern (lit "parent") parent parentPatternText with
          | some e =>
            simp [BuildQueryResourcesPayload, MergeErrors, hver, hr, hn, hpar, hvp]
          | none =>
            by_cases hsort : sort = []
            · simp [BuildQueryResourcesPayload, MergeErrors, hver, hr, hn, hpar, hvp, hsort]
            · by_cases hs : (sort = lit "name_asc" ∨ sort = lit "name_desc"
                  ∨ sort = lit "updated_asc" ∨ sort = lit "updated_desc")
              · simp [BuildQueryResourcesPayload, MergeErrors, hver, hr, hn, hpar, hvp,
                  hsort, hs]
              · simp [BuildQueryResourcesPayload, MergeErrors, hver, hr, hn, hpar, hvp,
                  hsort, hs]
    · simp [BuildQueryResourcesPayload, MergeErrors, hver]


end LfxQuery
